import Mathlib

/-!
Verification development for the encrypted client-directory Telegram bot
(`src/index.js`, search bot runtime, and the exporter script).

Modelling conventions:
* JavaScript strings are modelled as `List Char`; byte buffers as `List Nat`
  with every element `< 256`.
* The AES-256 block cipher invoked through Node's `crypto` module is external
  to the repository; it is modelled as an abstract keyed block function
  `E : List Nat → List Nat → List Nat` (key, 16-byte block ↦ 16-byte block).
  The GCM mode of operation built on top of it (CTR keystream, GHASH tag) is
  modelled concretely following the AEAD contract stated in the spec.
* Fallible JavaScript code (throwing, caught by the enclosing handlers) is
  modelled with `Except` and `Option`; the catch-all handlers of the source
  become total functions.
-/

/-- Character codes treated as whitespace by ECMAScript `String.prototype.trim`
(WhiteSpace ∪ LineTerminator, ECMA-262). -/
def wsCodes : List Nat :=
  [9, 10, 11, 12, 13, 32, 160, 0x1680, 0x2000, 0x2001, 0x2002, 0x2003, 0x2004,
   0x2005, 0x2006, 0x2007, 0x2008, 0x2009, 0x200A, 0x2028, 0x2029, 0x202F,
   0x205F, 0x3000, 0xFEFF]

/-- Whether a character is JavaScript whitespace (for `trim`). -/
def isJsWhitespace (c : Char) : Bool :=
  wsCodes.contains c.toNat

/-- Model of JavaScript `String.prototype.trim`: strip leading and trailing
whitespace characters. -/
def jsTrim (s : List Char) : List Char :=
  ((s.dropWhile isJsWhitespace).reverse.dropWhile isJsWhitespace).reverse

/-- Model of JavaScript `String.prototype.toLowerCase` (ASCII case mapping,
which is all the matching logic of the source relies on). -/
def jsToLower (s : List Char) : List Char :=
  s.map Char.toLower

/-- Helper for `jsIncludes`: scan the haystack left to right. -/
def jsIncludesAux (nee : List Char) : List Char → Bool
  | [] => nee.isEmpty
  | c :: t => nee.isPrefixOf (c :: t) || jsIncludesAux nee t

/-- Model of JavaScript `String.prototype.includes`: contiguous substring
containment. -/
def jsIncludes (hay nee : List Char) : Bool :=
  jsIncludesAux nee hay

/-- A client record after normalization (`src/index.js`, the record shape
produced by `decryptClientsPayload`): three free-text fields. -/
structure Client where
  name : List Char
  manager : List Char
  code : List Char
deriving DecidableEq, Repr

/-- A raw record as parsed from the decrypted JSON, before normalization.
`none` models a missing or `null` field; `some s` models a present value
after JavaScript `String(...)` coercion. -/
structure RawEntry where
  name : Option (List Char)
  manager : Option (List Char)
  code : Option (List Char)
deriving DecidableEq, Repr

/-- `normalizeCell` from `src/index.js` lines 92–97: missing/null becomes the
empty string, anything else is coerced to a string and trimmed. -/
def normalizeCell : Option (List Char) → List Char
  | none => []
  | some s => jsTrim s

/-- The per-entry normalization step of `decryptClientsPayload`
(`src/index.js` lines 132–135). -/
def normEntry (e : RawEntry) : Client :=
  { name := normalizeCell e.name
    manager := normalizeCell e.manager
    code := normalizeCell e.code }

/-- The map/filter pipeline of `decryptClientsPayload` (`src/index.js` lines
132–136): normalize every entry, keep those whose `name` is non-empty
(JavaScript truthiness of the string). -/
def loadRecords (entries : List RawEntry) : List Client :=
  (entries.map normEntry).filter (fun c => !c.name.isEmpty)

/-- The standard base64 alphabet (RFC 4648), as used by Node's
`Buffer.toString('base64')` / `Buffer.from(-, 'base64')`. -/
def b64Alphabet : List Char :=
  ['A', 'B', 'C', 'D', 'E', 'F', 'G', 'H', 'I', 'J', 'K', 'L', 'M',
   'N', 'O', 'P', 'Q', 'R', 'S', 'T', 'U', 'V', 'W', 'X', 'Y', 'Z',
   'a', 'b', 'c', 'd', 'e', 'f', 'g', 'h', 'i', 'j', 'k', 'l', 'm',
   'n', 'o', 'p', 'q', 'r', 's', 't', 'u', 'v', 'w', 'x', 'y', 'z',
   '0', '1', '2', '3', '4', '5', '6', '7', '8', '9', '+', '/']

/-- The base64 digit character for a sextet value. -/
def b64Char (i : Nat) : Char :=
  b64Alphabet.getD i 'A'

/-- The sextet value of a base64 digit character, `none` if the character is
not in the alphabet. -/
def b64Index (c : Char) : Option Nat :=
  b64Alphabet.findIdx? (fun x => x = c)

/-- Base64 encoding of a byte list (with `=` padding), as produced by Node's
`buffer.toString('base64')`. -/
def b64encode : List Nat → List Char
  | [] => []
  | [b1] =>
      [b64Char (b1 / 4), b64Char (b1 % 4 * 16), '=', '=']
  | [b1, b2] =>
      [b64Char (b1 / 4), b64Char (b1 % 4 * 16 + b2 / 16), b64Char (b2 % 16 * 4), '=']
  | b1 :: b2 :: b3 :: rest =>
      b64Char (b1 / 4) :: b64Char (b1 % 4 * 16 + b2 / 16)
        :: b64Char (b2 % 16 * 4 + b3 / 64) :: b64Char (b3 % 64) :: b64encode rest

/-- Modelled from the spec: base64 decoding of the stored payload fields.
Node's lenient decoder is external library code; following the spec's
"malformed base64" defect clause this model is the strict RFC 4648 decoder,
rejecting any input that is not canonical base64. -/
def b64decode : List Char → Option (List Nat)
  | [] => some []
  | c1 :: c2 :: c3 :: c4 :: rest =>
      match b64Index c1, b64Index c2 with
      | some s1, some s2 =>
        if c3 = '=' then
          if c4 = '=' ∧ rest = [] ∧ s2 % 16 = 0 then
            some [s1 * 4 + s2 / 16]
          else none
        else
          match b64Index c3 with
          | some s3 =>
            if c4 = '=' then
              if rest = [] ∧ s3 % 4 = 0 then
                some [s1 * 4 + s2 / 16, s2 % 16 * 16 + s3 / 4]
              else none
            else
              match b64Index c4 with
              | some s4 =>
                match b64decode rest with
                | some tl =>
                    some ((s1 * 4 + s2 / 16) :: (s2 % 16 * 16 + s3 / 4)
                      :: (s3 % 4 * 64 + s4) :: tl)
                | none => none
              | none => none
          | none => none
      | _, _ => none
  | _ => none

theorem b64Index_b64Char_fin : ∀ s : Fin 64, b64Index (b64Char s.val) = some s.val := by
  decide

theorem b64Char_ne_pad_fin : ∀ s : Fin 64, ¬ b64Char s.val = '=' := by
  decide

theorem b64Index_b64Char {s : Nat} (h : s < 64) : b64Index (b64Char s) = some s :=
  b64Index_b64Char_fin ⟨s, h⟩

theorem b64Char_ne_pad {s : Nat} (h : s < 64) : ¬ b64Char s = '=' :=
  b64Char_ne_pad_fin ⟨s, h⟩

theorem b64_roundtrip : ∀ l : List Nat, (∀ b ∈ l, b < 256) →
    b64decode (b64encode l) = some l
  | [], _ => by simp [b64encode, b64decode]
  | [b1], h => by
      have hb1 : b1 < 256 := h b1 (by simp)
      have h1 : b1 / 4 < 64 := by omega
      have h2 : b1 % 4 * 16 < 64 := by omega
      simp only [b64encode, b64decode, b64Index_b64Char h1, b64Index_b64Char h2]
      simp [Nat.mul_mod_left]
      omega
  | [b1, b2], h => by
      have hb1 : b1 < 256 := h b1 (by simp)
      have hb2 : b2 < 256 := h b2 (by simp)
      have h1 : b1 / 4 < 64 := by omega
      have h2 : b1 % 4 * 16 + b2 / 16 < 64 := by omega
      have h3 : b2 % 16 * 4 < 64 := by omega
      simp only [b64encode, b64decode, b64Index_b64Char h1, b64Index_b64Char h2,
        b64Index_b64Char h3]
      simp [b64Char_ne_pad h3, Nat.mul_mod_left]
      constructor <;> omega
  | b1 :: b2 :: b3 :: rest, h => by
      have hb1 : b1 < 256 := h b1 (by simp)
      have hb2 : b2 < 256 := h b2 (by simp)
      have hb3 : b3 < 256 := h b3 (by simp)
      have h1 : b1 / 4 < 64 := by omega
      have h2 : b1 % 4 * 16 + b2 / 16 < 64 := by omega
      have h3 : b2 % 16 * 4 + b3 / 64 < 64 := by omega
      have h4 : b3 % 64 < 64 := by omega
      have ih : b64decode (b64encode rest) = some rest :=
        b64_roundtrip rest (fun b hb => h b (by simp [hb]))
      simp only [b64encode, b64decode, b64Index_b64Char h1, b64Index_b64Char h2,
        b64Index_b64Char h3, b64Index_b64Char h4, ih]
      simp [b64Char_ne_pad h3, b64Char_ne_pad h4]
      refine ⟨by omega, by omega, by omega⟩

/-- Big-endian byte list read as a natural number. -/
def bytesToNat (l : List Nat) : Nat :=
  l.foldl (fun a b => a * 256 + b) 0

/-- `n`-byte big-endian encoding of `x` (modulo `256 ^ n`). -/
def natToBytesBE : Nat → Nat → List Nat
  | 0, _ => []
  | n + 1, x => natToBytesBE n (x / 256) ++ [x % 256]

/-- The GHASH reduction constant `R = 0xE1 · 2 ^ 120` (NIST SP 800-38D,
bit-reflected field representation). -/
def gcmR : Nat := 0xe1000000000000000000000000000000

/-- Bit-at-a-time carry-less multiplication loop in GF(2^128), processing the
bits of `x` from most significant to least. -/
def gfMulAux (x : Nat) : Nat → Nat → Nat → Nat
  | _, z, 0 => z
  | v, z, n + 1 =>
      let z2 := if x.testBit n then z ^^^ v else z
      let v2 := if v % 2 = 1 then (v / 2) ^^^ gcmR else v / 2
      gfMulAux x v2 z2 n

/-- Multiplication in GF(2^128) as used by GHASH. -/
def gfMul (x y : Nat) : Nat :=
  gfMulAux x y 0 128

/-- GHASH accumulation over the first `n` 16-byte blocks of `data`:
`y_0 = 0`, `y_{i+1} = (y_i ⊕ block_i) · H`. -/
def ghashN (hH : Nat) (data : List Nat) : Nat → Nat
  | 0 => 0
  | n + 1 => gfMul (ghashN hH data n ^^^ bytesToNat ((data.drop (16 * n)).take 16)) hH

/-- GHASH of a byte string whose length is a multiple of 16. -/
def ghashBlocks (hH : Nat) (data : List Nat) : Nat :=
  ghashN hH data (data.length / 16)

/-- Zero-pad a byte list on the right to a whole number of 16-byte blocks. -/
def pad16 (l : List Nat) : List Nat :=
  l ++ List.replicate ((16 - l.length % 16) % 16) 0

/-- An abstract keyed 128-bit block cipher family (key, block ↦ block): the
model of the AES-256 primitive that Node's `crypto` module supplies. -/
abbrev AesFam := List Nat → List Nat → List Nat

/-- The pre-counter block `J0` for a 12-byte IV (NIST SP 800-38D §7.1). -/
def gcmJ0 (iv : List Nat) : List Nat :=
  iv ++ [0, 0, 0, 1]

/-- The counter block used for the `i`-th keystream block: `J0` with its last
32 bits replaced by `2 + i` modulo `2 ^ 32`. -/
def gcmCtrBlock (iv : List Nat) (i : Nat) : List Nat :=
  iv ++ natToBytesBE 4 ((2 + i) % 2 ^ 32)

/-- The first `n` bytes of the GCM CTR keystream. -/
def gcmKeystream (E : AesFam) (key iv : List Nat) (n : Nat) : List Nat :=
  (List.flatten ((List.range ((n + 15) / 16)).map (fun i => E key (gcmCtrBlock iv i)))).take n

/-- Pointwise XOR of two byte lists (truncating to the shorter). -/
def xorBytes (a b : List Nat) : List Nat :=
  List.zipWith (fun x y => x ^^^ y) a b

/-- The CTR-mode body shared by GCM encryption and decryption: XOR the data
with the keystream. -/
def gcmCtr (E : AesFam) (key iv data : List Nat) : List Nat :=
  xorBytes data (gcmKeystream E key iv data.length)

/-- The GCM authentication tag over a ciphertext (no additional authenticated
data, 96-bit IV): `E(K, J0) ⊕ GHASH_H(pad(ct) ‖ len)`. -/
def gcmTag (E : AesFam) (key iv ct : List Nat) : List Nat :=
  let h := bytesToNat (E key (List.replicate 16 0))
  let lenBlock := natToBytesBE 8 0 ++ natToBytesBE 8 (8 * ct.length)
  xorBytes (E key (gcmJ0 iv)) (natToBytesBE 16 (ghashBlocks h (pad16 ct ++ lenBlock)))

/-- The failure cases of the decryption path of `decryptClientsPayload`
(every one is thrown and caught inside the function in the source). -/
inductive DecryptError
  | invalidStructure
  | badBase64
  | badIvLength
  | badTagLength
  | authFailed
deriving DecidableEq, Repr

/-- The encrypted blob object: the three base64 string fields of
`data/encrypted_clients.json`. `none` models an absent field of the parsed
JSON object. -/
structure Payload where
  iv : Option (List Char)
  data : Option (List Char)
  tag : Option (List Char)
deriving DecidableEq, Repr

/-- `encryptData` from the exporter script (lines 63–74): encrypt with
AES-256-GCM under a fresh 12-byte IV (the caller passes `iv` in place of
`crypto.randomBytes(12)`) and base64-encode the three payload fields. -/
def encryptData (E : AesFam) (key iv plaintext : List Nat) : Payload :=
  { iv := some (b64encode iv)
    data := some (b64encode (gcmCtr E key iv plaintext))
    tag := some (b64encode (gcmTag E key iv (gcmCtr E key iv plaintext))) }

/-- Modelled from the spec: the IV/tag length validation happens inside Node's
`createDecipheriv`/`setAuthTag` (external library code), and the spec fixes the
payload shape as `iv: bytes(12)`, `authTag: bytes(16)`. The rest of this
definition follows the decryption core of `decryptClientsPayload`
(`src/index.js` lines 108–126): the falsiness check on the three payload
fields, base64 decoding, and AES-256-GCM decryption that releases the
plaintext only if the recomputed authentication tag equals the stored one. -/
def decryptPayloadCore (E : AesFam) (key : List Nat) (pl : Payload) :
    Except DecryptError (List Nat) :=
  match pl.iv, pl.data, pl.tag with
  | some ivS, some dataS, some tagS =>
      if ivS = [] ∨ dataS = [] ∨ tagS = [] then .error .invalidStructure
      else
        match b64decode ivS, b64decode dataS, b64decode tagS with
        | some ivB, some ctB, some tagB =>
            if ivB.length = 12 then
              if tagB.length = 16 then
                if gcmTag E key ivB ctB = tagB then .ok (gcmCtr E key ivB ctB)
                else .error .authFailed
              else .error .badTagLength
            else .error .badIvLength
        | _, _, _ => .error .badBase64
  | _, _, _ => .error .invalidStructure

/-- `decryptClientsPayload` (`src/index.js` lines 99–141) as the total function
the enclosing try/catch makes it: every failure yields the empty list. `file`
is the content of the encrypted blob file (`none` when `fs.existsSync` is
false); `parseJson` models `JSON.parse` of the raw file (`none` when it
throws); `parseClients` models `JSON.parse` of the decrypted plaintext
combined with the `Array.isArray` check. -/
def decryptClientsPayload (E : AesFam) (key : List Nat)
    (parseJson : List Char → Option Payload)
    (parseClients : List Nat → Option (List RawEntry))
    (file : Option (List Char)) : List Client :=
  match file with
  | none => []
  | some raw =>
      match parseJson raw with
      | none => []
      | some pl =>
          match decryptPayloadCore E key pl with
          | .error _ => []
          | .ok pt =>
              match parseClients pt with
              | none => []
              | some entries => loadRecords entries

/-- The hard-coded shared access code (`src/index.js` line 12). -/
def ACCESS_CODE : List Char :=
  ['2', '2', '1', '7', '0', '3', '1', '3']

/-- `fallbackSearch` (`src/index.js` lines 220–230): case-insensitive substring
filter across the three fields, first 5 matches in collection order. -/
def fallbackSearch (clients : List Client) (query : List Char) : List Client :=
  let loweredQuery := jsToLower query
  (clients.filter (fun c =>
      jsIncludes (jsToLower c.name) loweredQuery
        || jsIncludes (jsToLower c.manager) loweredQuery
        || jsIncludes (jsToLower c.code) loweredQuery)).take 5

/-- `findMatches` (`src/index.js` lines 232–247). The Fuse.js engine is
external library code, abstracted as an optional search function: `none`
models the `fuse = null` degraded state, and the `limit: 5` option together
with the `.item` projection is folded into the abstract function. -/
def findMatches (clients : List Client) (fuse : Option (List Char → List Client))
    (query : List Char) : List Client :=
  if jsTrim query = [] then []
  else
    match fuse with
    | none => fallbackSearch clients query
    | some f =>
        let fuseResults := f query
        if fuseResults.isEmpty then fallbackSearch clients query
        else fuseResults

/-- The distinct outbound messages of the bot, abstracted from their Russian
text (`src/index.js`). -/
inductive Reply
  | accessGranted
  | accessPrompt
  | searchPrompt
  | matches (items : List Client)
  | noMatches
  | reloadDone
  | unknownCommand
  | startBack
  | startPrompt
deriving DecidableEq, Repr

/-- `formatResult` (`src/index.js` lines 206–218), abstracted to which outbound
message is produced: the "no matches" text for an empty result list, the
enumerated match list otherwise. -/
def formatResult (resultItems : List Client) : Reply :=
  if resultItems.isEmpty then .noMatches else .matches resultItems

/-- The mutable runtime state of the bot process: the in-memory authorized-user
set (insertion-ordered, as a JavaScript `Set`), the persisted registry file
content, the client collection and the Fuse index. -/
structure RuntimeState where
  authorized : List (List Char)
  registryFile : List (List Char)
  clients : List Client
  fuse : Option (List Char → List Client)

/-- `addAuthorizedUser` (`src/index.js` lines 74–90): a no-op when the identity
is already present; otherwise add it to the set and rewrite the registry file
with the whole set (the write is modelled as succeeding — on failure the source
still keeps the in-memory update). -/
def addAuthorizedUser (userId : List Char) (st : RuntimeState) : RuntimeState :=
  if userId ∈ st.authorized then st
  else
    let updated := st.authorized ++ [userId]
    { st with authorized := updated, registryFile := updated }

/-- `loadClients` (`src/index.js` lines 143–173): replace the collection and
rebuild the Fuse index, `none` when the collection is empty. `fuseOf` stands
for `new Fuse(clients, options)` (external library). -/
def loadClients (loaded : List Client) (fuseOf : List Client → List Char → List Client)
    (st : RuntimeState) : RuntimeState :=
  { st with
      clients := loaded
      fuse := if loaded.isEmpty then none else some (fuseOf loaded) }

/-- `handleUnauthorizedMessage` (`src/index.js` lines 249–269): authorize
exactly when the trimmed text equals the access code, else prompt for it. -/
def handleUnauthorizedMessage (st : RuntimeState) (chatId text : List Char) :
    RuntimeState × List Reply :=
  if jsTrim text = ACCESS_CODE then
    (addAuthorizedUser chatId st, [Reply.accessGranted])
  else
    (st, [Reply.accessPrompt])

/-- `handleSearchMessage` (`src/index.js` lines 271–280): prompt for a query
when the trimmed text is empty, else search and format. -/
def handleSearchMessage (st : RuntimeState) (query : List Char) :
    RuntimeState × List Reply :=
  if jsTrim query = [] then (st, [Reply.searchPrompt])
  else (st, [formatResult (findMatches st.clients st.fuse query)])

/-- The `message` handler installed by `bootstrap` (`src/index.js` lines
305–332). Non-text messages arrive as empty text (`msg.text || ''`) and are
ignored; `loaded`/`fuseOf` parameterize the `loadClients` call performed by the
`/reload` command. -/
def handleMessage (loaded : List Client)
    (fuseOf : List Client → List Char → List Client)
    (st : RuntimeState) (chatId text : List Char) : RuntimeState × List Reply :=
  if text = [] then (st, [])
  else if chatId ∉ st.authorized then handleUnauthorizedMessage st chatId text
  else if text.head? = some '/' then
    if text = ['/', 'r', 'e', 'l', 'o', 'a', 'd'] then
      (loadClients loaded fuseOf st, [Reply.reloadDone])
    else (st, [Reply.unknownCommand])
  else handleSearchMessage st text

/-- The `/start` handler (`src/index.js` lines 289–303). -/
def handleStart (st : RuntimeState) (chatId : List Char) : RuntimeState × List Reply :=
  if chatId ∈ st.authorized then (st, [Reply.startBack]) else (st, [Reply.startPrompt])

/-- The fatal startup configuration errors (`src/index.js` lines 15–36). -/
inductive ConfigError
  | missingBotToken
  | missingDataSecret
  | badDataSecret
deriving DecidableEq, Repr

/-- The startup environment validation (`src/index.js` lines 11–36): BOT_TOKEN
and DATA_SECRET must be present and non-empty (JavaScript falsiness), and
DATA_SECRET must base64-decode to exactly 32 bytes; any violation aborts the
process before the bot starts. Base64 decoding is the strict model
(cf. `b64decode`). -/
def validateConfig (botToken dataSecret : Option (List Char)) :
    Except ConfigError (List Nat) :=
  match botToken with
  | none => .error .missingBotToken
  | some t =>
      if t = [] then .error .missingBotToken
      else
        match dataSecret with
        | none => .error .missingDataSecret
        | some s =>
            if s = [] then .error .missingDataSecret
            else
              match b64decode s with
              | none => .error .badDataSecret
              | some bytes =>
                  if bytes.length = 32 then .ok bytes else .error .badDataSecret

theorem length_natToBytesBE (n x : Nat) : (natToBytesBE n x).length = n := by
  induction n generalizing x with
  | zero => rfl
  | succ n ih => simp [natToBytesBE, ih]

theorem mem_natToBytesBE_lt (n x b : Nat) (hb : b ∈ natToBytesBE n x) : b < 256 := by
  induction n generalizing x with
  | zero => simp [natToBytesBE] at hb
  | succ n ih =>
      simp only [natToBytesBE, List.mem_append, List.mem_singleton] at hb
      rcases hb with h | h
      · exact ih _ h
      · omega

theorem length_gcmKeystream (E : AesFam) (key iv : List Nat) (n : Nat)
    (hE : ∀ k b, (E k b).length = 16) : (gcmKeystream E key iv n).length = n := by
  have hlen : (List.flatten ((List.range ((n + 15) / 16)).map
      (fun i => E key (gcmCtrBlock iv i)))).length = 16 * ((n + 15) / 16) := by
    rw [List.length_flatten, List.map_map]
    have hmap : ((List.range ((n + 15) / 16)).map
        (List.length ∘ fun i => E key (gcmCtrBlock iv i)))
        = (List.range ((n + 15) / 16)).map (fun _ => 16) := by
      apply List.map_congr_left
      intro i _
      simp [hE]
    rw [hmap, List.map_const', List.sum_replicate, List.length_range, smul_eq_mul]
    ring
  simp only [gcmKeystream, List.length_take, hlen]
  omega

theorem mem_gcmKeystream_lt (E : AesFam) (key iv : List Nat) (n : Nat)
    (hE2 : ∀ k b x, x ∈ E k b → x < 256) :
    ∀ x ∈ gcmKeystream E key iv n, x < 256 := by
  intro x hx
  have hmem := List.mem_of_mem_take hx
  rw [List.mem_flatten] at hmem
  obtain ⟨s, hs, hxs⟩ := hmem
  rw [List.mem_map] at hs
  obtain ⟨i, _, rfl⟩ := hs
  exact hE2 _ _ _ hxs

theorem length_xorBytes (a b : List Nat) : (xorBytes a b).length = min a.length b.length := by
  simp [xorBytes]

theorem mem_xorBytes_lt (a b : List Nat) (ha : ∀ x ∈ a, x < 256) (hb : ∀ x ∈ b, x < 256) :
    ∀ x ∈ xorBytes a b, x < 256 := by
  induction a generalizing b with
  | nil => simp [xorBytes]
  | cons y ys ih =>
      cases b with
      | nil => simp [xorBytes]
      | cons z zs =>
          intro x hx
          simp only [xorBytes, List.zipWith_cons_cons, List.mem_cons] at hx
          rcases hx with h | h
          · subst h
            have h1 : y < 256 := ha y (by simp)
            have h2 : z < 256 := hb z (by simp)
            have h256 : (256 : Nat) = 2 ^ 8 := by norm_num
            rw [h256] at h1 h2 ⊢
            exact Nat.xor_lt_two_pow h1 h2
          · exact ih zs (fun u hu => ha u (by simp [hu])) (fun u hu => hb u (by simp [hu])) x h

theorem xorBytes_cancel (a b : List Nat) (h : a.length ≤ b.length) :
    xorBytes (xorBytes a b) b = a := by
  induction a generalizing b with
  | nil => simp [xorBytes]
  | cons x xs ih =>
      cases b with
      | nil => simp at h
      | cons y ys =>
          simp only [xorBytes, List.zipWith_cons_cons, List.cons.injEq]
          refine ⟨Nat.xor_cancel_right y x, ?_⟩
          exact ih ys (by simpa using h)

theorem length_gcmCtr (E : AesFam) (key iv p : List Nat)
    (hE : ∀ k b, (E k b).length = 16) : (gcmCtr E key iv p).length = p.length := by
  simp [gcmCtr, length_xorBytes, length_gcmKeystream E key iv _ hE]

theorem mem_gcmCtr_lt (E : AesFam) (key iv p : List Nat)
    (hE2 : ∀ k b x, x ∈ E k b → x < 256) (hp : ∀ x ∈ p, x < 256) :
    ∀ x ∈ gcmCtr E key iv p, x < 256 :=
  mem_xorBytes_lt _ _ hp (mem_gcmKeystream_lt E key iv _ hE2)

theorem length_gcmTag (E : AesFam) (key iv ct : List Nat)
    (hE : ∀ k b, (E k b).length = 16) : (gcmTag E key iv ct).length = 16 := by
  simp [gcmTag, length_xorBytes, hE, length_natToBytesBE]

theorem mem_gcmTag_lt (E : AesFam) (key iv ct : List Nat)
    (hE2 : ∀ k b x, x ∈ E k b → x < 256) :
    ∀ x ∈ gcmTag E key iv ct, x < 256 :=
  mem_xorBytes_lt _ _ (hE2 _ _) (fun b hb => mem_natToBytesBE_lt 16 _ b hb)

theorem gcmCtr_gcmCtr (E : AesFam) (key iv p : List Nat)
    (hE : ∀ k b, (E k b).length = 16) :
    gcmCtr E key iv (gcmCtr E key iv p) = p := by
  have h1 : (gcmCtr E key iv p).length = p.length := length_gcmCtr E key iv p hE
  show xorBytes (gcmCtr E key iv p) (gcmKeystream E key iv (gcmCtr E key iv p).length) = p
  rw [h1]
  exact xorBytes_cancel p _ (by rw [length_gcmKeystream E key iv _ hE])

theorem b64encode_ne_nil {l : List Nat} (h : l ≠ []) : b64encode l ≠ [] := by
  match l with
  | [] => exact absurd rfl h
  | [b1] => simp [b64encode]
  | [b1, b2] => simp [b64encode]
  | b1 :: b2 :: b3 :: rest => simp [b64encode]

/-- A trivial instance of the abstract block-cipher family, used to evaluate
the cipher-store model at concrete inputs. -/
def constBlockCipher : AesFam := fun _ _ => List.replicate 16 0

/-- A concrete 32-byte key for evaluating the cipher-store model. -/
def sampleKey : List Nat := List.replicate 32 0

/-- A concrete 12-byte IV for evaluating the cipher-store model. -/
def sampleIv : List Nat := List.replicate 12 0

theorem constBlockCipher_len : ∀ k b, (constBlockCipher k b).length = 16 :=
  fun _ _ => rfl

theorem constBlockCipher_lt : ∀ k b x, x ∈ constBlockCipher k b → x < 256 := by
  intro k b x hx
  have := List.eq_of_mem_replicate hx
  omega

/-- **C1 (amended).** For every block-cipher instance `E` standing for AES-256
(16-byte byte-valued outputs), every 32-byte key, every 12-byte IV (as drawn by
`crypto.randomBytes(12)`) and every non-empty plaintext byte string `p`,
decrypting the payload produced by `encryptData` with the same key yields
exactly `p`. (For the empty plaintext the round-trip fails: see
`roundtrip_fails_on_empty_plaintext`.) -/
theorem encrypt_decrypt_roundtrip (E : AesFam) (key iv p : List Nat)
    (hE : ∀ k b, (E k b).length = 16) (hE2 : ∀ k b x, x ∈ E k b → x < 256)
    (hkey : key.length = 32) (hiv : iv.length = 12) (hivB : ∀ b ∈ iv, b < 256)
    (hp : ∀ b ∈ p, b < 256) (hne : p ≠ []) :
    decryptPayloadCore E key (encryptData E key iv p) = Except.ok p := by
  have hct_len := length_gcmCtr E key iv p hE
  have hct_lt := mem_gcmCtr_lt E key iv p hE2 hp
  have htag_len := length_gcmTag E key iv (gcmCtr E key iv p) hE
  have htag_lt := mem_gcmTag_lt E key iv (gcmCtr E key iv p) hE2
  have hivnil : iv ≠ [] := by
    intro hnil
    rw [hnil] at hiv
    simp at hiv
  have hctnil : gcmCtr E key iv p ≠ [] := by
    intro hnil
    rw [hnil] at hct_len
    exact hne (List.eq_nil_of_length_eq_zero hct_len.symm)
  have htagnil : gcmTag E key iv (gcmCtr E key iv p) ≠ [] := by
    intro hnil
    rw [hnil] at htag_len
    simp at htag_len
  simp only [encryptData, decryptPayloadCore]
  rw [if_neg (by
    push_neg
    exact ⟨b64encode_ne_nil hivnil, b64encode_ne_nil hctnil, b64encode_ne_nil htagnil⟩)]
  rw [b64_roundtrip iv hivB, b64_roundtrip _ hct_lt, b64_roundtrip _ htag_lt]
  simp [hiv, htag_len, gcmCtr_gcmCtr E key iv p hE]

/-- **C1 counterexample.** With the empty plaintext, `encryptData` stores the
ciphertext field as the empty string, which the falsiness check at the top of
`decryptClientsPayload` rejects as an invalid payload structure: the round-trip
fails even though key, IV and tag are well-formed. -/
theorem roundtrip_fails_on_empty_plaintext :
    decryptPayloadCore constBlockCipher sampleKey
      (encryptData constBlockCipher sampleKey sampleIv []) =
      Except.error DecryptError.invalidStructure := by
  rfl

/-- Witness for C1: the amended round-trip theorem applied at a concrete cipher
instance, key, IV and two-byte plaintext. -/
theorem encrypt_decrypt_roundtrip_witness :
    decryptPayloadCore constBlockCipher sampleKey
      (encryptData constBlockCipher sampleKey sampleIv [104, 105]) =
      Except.ok [104, 105] :=
  encrypt_decrypt_roundtrip constBlockCipher sampleKey sampleIv [104, 105]
    constBlockCipher_len constBlockCipher_lt rfl rfl (by decide) (by decide) (by decide)

/-- Flip bit `j` of the `i`-th byte of a byte list (an attacker's one-bit
corruption of the stored authentication tag). -/
def flipBit (l : List Nat) (i j : Nat) : List Nat :=
  l.set i (l.getD i 0 ^^^ 2 ^ j)

theorem flipBit_ne (l : List Nat) (i j : Nat) (hi : i < l.length) : flipBit l i j ≠ l := by
  intro hcontra
  have h1 : (l.set i (l.getD i 0 ^^^ 2 ^ j))[i]? = some (l.getD i 0 ^^^ 2 ^ j) := by
    simp [List.getElem?_set, hi]
  rw [flipBit] at hcontra
  rw [hcontra] at h1
  have h2 : l.getD i 0 = l.getD i 0 ^^^ 2 ^ j := by
    conv_lhs => rw [List.getD_eq_getElem?_getD, h1]
    rfl
  have h3 : 0 < 2 ^ j := Nat.two_pow_pos j
  have h4 : (2 : Nat) ^ j = 0 := by
    calc (2 : Nat) ^ j = l.getD i 0 ^^^ (l.getD i 0 ^^^ 2 ^ j) := by
          rw [← Nat.xor_assoc, Nat.xor_self, Nat.zero_xor]
      _ = l.getD i 0 ^^^ l.getD i 0 := by rw [← h2]
      _ = 0 := Nat.xor_self _
  omega

theorem mem_flipBit_lt (l : List Nat) (i j : Nat) (hl : ∀ x ∈ l, x < 256) (hj : j < 8) :
    ∀ x ∈ flipBit l i j, x < 256 := by
  intro x hx
  rcases List.mem_or_eq_of_mem_set hx with h | h
  · exact hl x h
  · subst h
    have h1 : l.getD i 0 < 256 := by
      by_cases hi : i < l.length
      · rw [List.getD_eq_getElem l 0 hi]
        exact hl _ (List.getElem_mem hi)
      · rw [List.getD_eq_getElem?_getD, List.getElem?_eq_none (by omega)]
        norm_num
    have h2 : (2 : Nat) ^ j < 256 := by
      have hle : (2 : Nat) ^ j ≤ 2 ^ 7 := Nat.pow_le_pow_right (by norm_num) (by omega)
      omega
    have h256 : (256 : Nat) = 2 ^ 8 := by norm_num
    rw [h256] at h1 h2 ⊢
    exact Nat.xor_lt_two_pow h1 h2

theorem length_flipBit (l : List Nat) (i j : Nat) : (flipBit l i j).length = l.length :=
  List.length_set l i _

/-- **C4.** `decrypt` fails closed. (1) Whenever the decryption core returns a
plaintext, the payload had all three fields, they decoded as base64, and the
stored tag equals the tag recomputed over the stored ciphertext — unverified or
partial data is never released. (2) Flipping any single bit of the stored
authentication tag of an encrypted payload makes decryption fail with an error.
(3) A missing field, (4) a wrong nonce length, (5) a wrong tag length and
(6) malformed base64 each yield the corresponding typed error. -/
theorem decrypt_fails_closed :
    (∀ (E : AesFam) (key : List Nat) (pl : Payload) (pt : List Nat),
      decryptPayloadCore E key pl = Except.ok pt →
      ∃ ivS dataS tagS ivB ctB,
        pl.iv = some ivS ∧ pl.data = some dataS ∧ pl.tag = some tagS ∧
        b64decode ivS = some ivB ∧ b64decode dataS = some ctB ∧
        b64decode tagS = some (gcmTag E key ivB ctB) ∧ pt = gcmCtr E key ivB ctB) ∧
    (∀ (E : AesFam) (key iv p : List Nat) (i j : Nat),
      (∀ k b, (E k b).length = 16) → (∀ k b x, x ∈ E k b → x < 256) →
      iv.length = 12 → (∀ b ∈ iv, b < 256) → (∀ b ∈ p, b < 256) → i < 16 → j < 8 →
      ∃ e, decryptPayloadCore E key
        { encryptData E key iv p with
          tag := some (b64encode (flipBit (gcmTag E key iv (gcmCtr E key iv p)) i j)) } =
        Except.error e) ∧
    (∀ (E : AesFam) (key : List Nat) (ivS dataS : List Char),
      decryptPayloadCore E key { iv := some ivS, data := some dataS, tag := none } =
        Except.error DecryptError.invalidStructure) ∧
    (∀ (E : AesFam) (key ivB ctB tagB : List Nat),
      ivB ≠ [] → ctB ≠ [] → tagB ≠ [] →
      (∀ b ∈ ivB, b < 256) → (∀ b ∈ ctB, b < 256) → (∀ b ∈ tagB, b < 256) →
      ivB.length ≠ 12 →
      decryptPayloadCore E key
        { iv := some (b64encode ivB), data := some (b64encode ctB),
          tag := some (b64encode tagB) } = Except.error DecryptError.badIvLength) ∧
    (∀ (E : AesFam) (key ivB ctB tagB : List Nat),
      ivB ≠ [] → ctB ≠ [] → tagB ≠ [] →
      (∀ b ∈ ivB, b < 256) → (∀ b ∈ ctB, b < 256) → (∀ b ∈ tagB, b < 256) →
      ivB.length = 12 → tagB.length ≠ 16 →
      decryptPayloadCore E key
        { iv := some (b64encode ivB), data := some (b64encode ctB),
          tag := some (b64encode tagB) } = Except.error DecryptError.badTagLength) ∧
    (∀ (E : AesFam) (key ivB tagB : List Nat) (s : List Char),
      ivB ≠ [] → tagB ≠ [] → s ≠ [] →
      (∀ b ∈ ivB, b < 256) → (∀ b ∈ tagB, b < 256) →
      b64decode s = none →
      decryptPayloadCore E key
        { iv := some (b64encode ivB), data := some s, tag := some (b64encode tagB) } =
        Except.error DecryptError.badBase64) := by
  refine ⟨?_, ?_, ?_, ?_, ?_, ?_⟩
  · -- (1) success implies the tag validated
    intro E key pl pt h
    obtain ⟨ivo, dato, tago⟩ := pl
    rcases ivo with _ | ivS
    · simp [decryptPayloadCore] at h
    rcases dato with _ | dataS
    · simp [decryptPayloadCore] at h
    rcases tago with _ | tagS
    · simp [decryptPayloadCore] at h
    simp only [decryptPayloadCore] at h
    split at h
    · simp at h
    rcases h1 : b64decode ivS with _ | ivB
    · rw [h1] at h
      simp at h
    rcases h2 : b64decode dataS with _ | ctB
    · rw [h1, h2] at h
      simp at h
    rcases h3 : b64decode tagS with _ | tagB
    · rw [h1, h2, h3] at h
      simp at h
    rw [h1, h2, h3] at h
    simp only at h
    split at h
    · split at h
      · split at h
        · rename_i htageq
          injection h with hh
          exact ⟨ivS, dataS, tagS, ivB, ctB, rfl, rfl, rfl, h1, h2, htageq ▸ h3, hh.symm⟩
        · simp at h
      · simp at h
    · simp at h
  · -- (2) flipping any tag bit makes decryption fail
    intro E key iv p i j hE hE2 hiv hivB hp hi hj
    by_cases hp0 : p = []
    · refine ⟨DecryptError.invalidStructure, ?_⟩
      subst hp0
      have hct : gcmCtr E key iv [] = [] := rfl
      simp [decryptPayloadCore, encryptData, hct, b64encode]
    · refine ⟨DecryptError.authFailed, ?_⟩
      have hct_len := length_gcmCtr E key iv p hE
      have hct_lt := mem_gcmCtr_lt E key iv p hE2 hp
      have htag_len := length_gcmTag E key iv (gcmCtr E key iv p) hE
      have htag_lt := mem_gcmTag_lt E key iv (gcmCtr E key iv p) hE2
      have hflip_len : (flipBit (gcmTag E key iv (gcmCtr E key iv p)) i j).length = 16 := by
        rw [length_flipBit, htag_len]
      have hflip_lt := mem_flipBit_lt (gcmTag E key iv (gcmCtr E key iv p)) i j htag_lt hj
      have hivnil : iv ≠ [] := by
        intro hnil
        rw [hnil] at hiv
        simp at hiv
      have hctnil : gcmCtr E key iv p ≠ [] := by
        intro hnil
        rw [hnil] at hct_len
        exact hp0 (List.eq_nil_of_length_eq_zero hct_len.symm)
      have hflipnil : flipBit (gcmTag E key iv (gcmCtr E key iv p)) i j ≠ [] := by
        intro hnil
        rw [hnil] at hflip_len
        simp at hflip_len
      have hne : gcmTag E key iv (gcmCtr E key iv p)
          ≠ flipBit (gcmTag E key iv (gcmCtr E key iv p)) i j := by
        intro hcontra
        exact flipBit_ne _ i j (by omega) hcontra.symm
      simp only [encryptData, decryptPayloadCore]
      rw [if_neg (by
        push_neg
        exact ⟨b64encode_ne_nil hivnil, b64encode_ne_nil hctnil, b64encode_ne_nil hflipnil⟩)]
      rw [b64_roundtrip iv hivB, b64_roundtrip _ hct_lt, b64_roundtrip _ hflip_lt]
      simp [hiv, hflip_len, hne]
  · -- (3) missing field
    intro E key ivS dataS
    simp [decryptPayloadCore]
  · -- (4) wrong nonce length
    intro E key ivB ctB tagB hivnil hctnil htagnil hivlt hctlt htaglt hlen
    simp only [decryptPayloadCore]
    rw [if_neg (by
      push_neg
      exact ⟨b64encode_ne_nil hivnil, b64encode_ne_nil hctnil, b64encode_ne_nil htagnil⟩)]
    rw [b64_roundtrip _ hivlt, b64_roundtrip _ hctlt, b64_roundtrip _ htaglt]
    simp [hlen]
  · -- (5) wrong tag length
    intro E key ivB ctB tagB hivnil hctnil htagnil hivlt hctlt htaglt hlen12 hlen16
    simp only [decryptPayloadCore]
    rw [if_neg (by
      push_neg
      exact ⟨b64encode_ne_nil hivnil, b64encode_ne_nil hctnil, b64encode_ne_nil htagnil⟩)]
    rw [b64_roundtrip _ hivlt, b64_roundtrip _ hctlt, b64_roundtrip _ htaglt]
    simp [hlen12, hlen16]
  · -- (6) malformed base64
    intro E key ivB tagB s hivnil htagnil hsnil hivlt htaglt hbad
    simp only [decryptPayloadCore]
    rw [if_neg (by
      push_neg
      exact ⟨b64encode_ne_nil hivnil, hsnil, b64encode_ne_nil htagnil⟩)]
    rw [b64_roundtrip _ hivlt, b64_roundtrip _ htaglt, hbad]

/-- Witness for C4: the fails-closed theorem applied at concrete payloads — a
bit-flipped tag, a missing tag field, a 1-byte nonce, a 1-byte tag, and a
non-base64 ciphertext field. -/
theorem decrypt_fails_closed_witness :
    (∃ e, decryptPayloadCore constBlockCipher sampleKey
        { encryptData constBlockCipher sampleKey sampleIv [104, 105] with
          tag := some (b64encode (flipBit (gcmTag constBlockCipher sampleKey sampleIv
            (gcmCtr constBlockCipher sampleKey sampleIv [104, 105])) 0 0)) } =
        Except.error e) ∧
    decryptPayloadCore constBlockCipher sampleKey
      { iv := some ['A'], data := some ['A'], tag := none } =
      Except.error DecryptError.invalidStructure ∧
    decryptPayloadCore constBlockCipher sampleKey
      { iv := some (b64encode [1]), data := some (b64encode [2]),
        tag := some (b64encode (List.replicate 16 3)) } =
      Except.error DecryptError.badIvLength ∧
    decryptPayloadCore constBlockCipher sampleKey
      { iv := some (b64encode sampleIv), data := some (b64encode [2]),
        tag := some (b64encode [3]) } =
      Except.error DecryptError.badTagLength ∧
    decryptPayloadCore constBlockCipher sampleKey
      { iv := some (b64encode sampleIv), data := some ['!'],
        tag := some (b64encode (List.replicate 16 3)) } =
      Except.error DecryptError.badBase64 :=
  ⟨decrypt_fails_closed.2.1 constBlockCipher sampleKey sampleIv [104, 105] 0 0
      constBlockCipher_len constBlockCipher_lt rfl (by decide) (by decide)
      (by decide) (by decide),
   decrypt_fails_closed.2.2.1 constBlockCipher sampleKey ['A'] ['A'],
   decrypt_fails_closed.2.2.2.1 constBlockCipher sampleKey [1] [2] (List.replicate 16 3)
      (by decide) (by decide) (by decide) (by decide) (by decide) (by decide) (by decide),
   decrypt_fails_closed.2.2.2.2.1 constBlockCipher sampleKey sampleIv [2] [3]
      (by decide) (by decide) (by decide) (by decide) (by decide) (by decide)
      rfl (by decide),
   decrypt_fails_closed.2.2.2.2.2 constBlockCipher sampleKey sampleIv
      (List.replicate 16 3) ['!'] (by decide) (by decide) (by decide) (by decide)
      (by decide) (by decide)⟩

/-- **C5.** `decryptClientsPayload` yields the empty collection whenever the
encrypted blob file is absent, the file fails to parse, decryption fails, or
the plaintext fails to parse as an array — and, being a total function of its
inputs, the error never escapes (the source catches it, warns, and returns). -/
theorem load_degrades_to_empty :
    ∀ (E : AesFam) (key : List Nat) (parseJson : List Char → Option Payload)
      (parseClients : List Nat → Option (List RawEntry)),
      (decryptClientsPayload E key parseJson parseClients none = []) ∧
      (∀ raw, parseJson raw = none →
        decryptClientsPayload E key parseJson parseClients (some raw) = []) ∧
      (∀ raw pl e, parseJson raw = some pl →
        decryptPayloadCore E key pl = Except.error e →
        decryptClientsPayload E key parseJson parseClients (some raw) = []) ∧
      (∀ raw pl pt, parseJson raw = some pl →
        decryptPayloadCore E key pl = Except.ok pt → parseClients pt = none →
        decryptClientsPayload E key parseJson parseClients (some raw) = []) := by
  intro E key pj pc
  refine ⟨rfl, ?_, ?_, ?_⟩
  · intro raw h
    simp [decryptClientsPayload, h]
  · intro raw pl e h1 h2
    simp [decryptClientsPayload, h1, h2]
  · intro raw pl pt h1 h2 h3
    simp [decryptClientsPayload, h1, h2, h3]

set_option maxRecDepth 8000 in
/-- Witness for C5: the degradation theorem applied at concrete failing inputs
for each of the four failure modes. -/
theorem load_degrades_to_empty_witness :
    decryptClientsPayload constBlockCipher sampleKey (fun _ => none) (fun _ => none)
      none = [] ∧
    decryptClientsPayload constBlockCipher sampleKey (fun _ => none) (fun _ => none)
      (some ['x']) = [] ∧
    decryptClientsPayload constBlockCipher sampleKey
      (fun _ => some { iv := none, data := none, tag := none }) (fun _ => none)
      (some ['x']) = [] ∧
    decryptClientsPayload constBlockCipher sampleKey
      (fun _ => some (encryptData constBlockCipher sampleKey sampleIv [104, 105]))
      (fun _ => none) (some ['x']) = [] :=
  ⟨(load_degrades_to_empty constBlockCipher sampleKey (fun _ => none) (fun _ => none)).1,
   (load_degrades_to_empty constBlockCipher sampleKey (fun _ => none)
      (fun _ => none)).2.1 ['x'] rfl,
   (load_degrades_to_empty constBlockCipher sampleKey
      (fun _ => some { iv := none, data := none, tag := none })
      (fun _ => none)).2.2.1 ['x'] { iv := none, data := none, tag := none }
      DecryptError.invalidStructure rfl rfl,
   (load_degrades_to_empty constBlockCipher sampleKey
      (fun _ => some (encryptData constBlockCipher sampleKey sampleIv [104, 105]))
      (fun _ => none)).2.2.2 ['x']
      (encryptData constBlockCipher sampleKey sampleIv [104, 105]) [104, 105] rfl
      (by rfl) rfl⟩

theorem normEntry_name (e : RawEntry) : (normEntry e).name = jsTrim (e.name.getD []) := by
  cases hn : e.name <;> simp [normEntry, normalizeCell, hn, jsTrim]

/-- **C6.** `load` normalization: the loaded collection equals the raw entries
whose trimmed name is non-empty, each mapped to its field-wise normalization
(trim, missing/null ↦ empty string); every entry with a non-empty trimmed name
is retained (blank manager/code become empty strings, never omitted), every
loaded record has a non-empty name and stems from an entry, the collection
order is preserved, and `normalizeCell` coerces missing to `""` and trims. -/
theorem load_normalizes_and_filters :
    ∀ entries : List RawEntry,
      loadRecords entries =
        (entries.filter (fun e => !(jsTrim (e.name.getD [])).isEmpty)).map normEntry ∧
      (∀ e ∈ entries, jsTrim (e.name.getD []) ≠ [] → normEntry e ∈ loadRecords entries) ∧
      (∀ c ∈ loadRecords entries, c.name ≠ [] ∧ ∃ e ∈ entries, c = normEntry e) ∧
      List.Sublist (loadRecords entries) (entries.map normEntry) ∧
      normalizeCell none = [] ∧ (∀ s, normalizeCell (some s) = jsTrim s) := by
  intro entries
  refine ⟨?_, ?_, ?_, ?_, rfl, fun s => rfl⟩
  · rw [loadRecords, List.filter_map]
    congr 1
    apply List.filter_congr
    intro e _
    simp [Function.comp, normEntry_name]
  · intro e he hname
    rw [loadRecords]
    apply List.mem_filter.mpr
    refine ⟨List.mem_map_of_mem normEntry he, ?_⟩
    simp [normEntry_name, hname]
  · intro c hc
    rw [loadRecords] at hc
    obtain ⟨hmem, hp⟩ := List.mem_filter.mp hc
    obtain ⟨e, he, rfl⟩ := List.mem_map.mp hmem
    refine ⟨?_, e, he, rfl⟩
    simpa using hp
  · exact List.filter_sublist _

/-- Witness for C6: a record whose name trims to `"a"` (with missing manager
and blank code) is retained by `loadRecords` as trimmed/empty-string fields,
while a whitespace-only name is excluded. -/
theorem load_normalizes_and_filters_witness :
    normEntry { name := some [' ', 'a'], manager := none, code := some [] } ∈
      loadRecords [{ name := some [' ', 'a'], manager := none, code := some [] },
        { name := some [' '], manager := some ['m'], code := none }] :=
  (load_normalizes_and_filters _).2.1 _ (by decide) (by decide)

theorem jsTrim_eq_nil_of_all_ws (q : List Char) (h : ∀ c ∈ q, isJsWhitespace c = true) :
    jsTrim q = [] := by
  have h1 : q.dropWhile isJsWhitespace = [] := List.dropWhile_eq_nil_iff.mpr h
  simp [jsTrim, h1]

/-- **C7.** For every client collection (empty or not) and every Fuse state,
`findMatches` on an empty or whitespace-only query returns the empty result. -/
theorem search_blank_query_empty :
    ∀ (clients : List Client) (fuse : Option (List Char → List Client)) (q : List Char),
      (∀ c ∈ q, isJsWhitespace c = true) → findMatches clients fuse q = [] := by
  intro clients fuse q h
  simp [findMatches, jsTrim_eq_nil_of_all_ws q h]

/-- Witness for C7: a space-and-tab query against a non-empty directory. -/
theorem search_blank_query_empty_witness :
    findMatches [{ name := ['a'], manager := [], code := [] }] none [' ', '\t'] = [] :=
  search_blank_query_empty _ none _ (by decide)

/-- A Fuse instance that finds nothing, to exercise the fallback path. -/
def emptyFuse : List Char → List Client := fun _ => []

/-- **C3 (amended).** If the fuzzy engine returns zero results for a non-blank
query, `findMatches` returns exactly `fallbackSearch`, the plain
case-insensitive substring filter over name/manager/code: at most 5 records,
in original collection order, each containing the query; and every record
whose name contains the query as an exact substring is returned provided at
most 5 records in total pass the substring check — the `slice(0, 5)` cap can
otherwise drop it (see the counterexample). -/
theorem fuzzy_fallback_substring (clients : List Client)
    (f : List Char → List Client) (q : List Char)
    (hq : jsTrim q ≠ []) (hf : f q = []) :
    findMatches clients (some f) q = fallbackSearch clients q ∧
    (fallbackSearch clients q).length ≤ 5 ∧
    List.Sublist (fallbackSearch clients q) clients ∧
    (∀ c ∈ fallbackSearch clients q,
      (jsIncludes (jsToLower c.name) (jsToLower q)
        || jsIncludes (jsToLower c.manager) (jsToLower q)
        || jsIncludes (jsToLower c.code) (jsToLower q)) = true) ∧
    ((clients.filter (fun c =>
        jsIncludes (jsToLower c.name) (jsToLower q)
          || jsIncludes (jsToLower c.manager) (jsToLower q)
          || jsIncludes (jsToLower c.code) (jsToLower q))).length ≤ 5 →
      ∀ c ∈ clients, jsIncludes (jsToLower c.name) (jsToLower q) = true →
        c ∈ fallbackSearch clients q) := by
  refine ⟨?_, ?_, ?_, ?_, ?_⟩
  · simp [findMatches, hq, hf]
  · exact List.length_take_le 5 _
  · exact List.Sublist.trans (List.take_sublist 5 _) (List.filter_sublist clients)
  · intro c hc
    have hmem := List.mem_of_mem_take hc
    exact (List.mem_filter.mp hmem).2
  · intro hlen c hc hname
    rw [fallbackSearch]
    rw [List.take_of_length_le hlen]
    exact List.mem_filter.mpr ⟨hc, by simp [hname]⟩

/-- A six-record directory on which the substring cap bites. -/
def sixClients : List Client :=
  [{ name := ['a', '0'], manager := [], code := [] },
   { name := ['a', '1'], manager := [], code := [] },
   { name := ['a', '2'], manager := [], code := [] },
   { name := ['a', '3'], manager := [], code := [] },
   { name := ['a', '4'], manager := [], code := [] },
   { name := ['a', '5'], manager := [], code := [] }]

/-- **C3 counterexample.** The sixth record's name contains the query `"a"` as
an exact substring and the fuzzy engine returns nothing, yet the fallback path
does not return it: `slice(0, 5)` keeps only the first five of the six
substring matches, so "any record whose name contains the query is returned"
fails as stated. -/
theorem fallback_truncation_cex :
    jsTrim ['a'] ≠ [] ∧ emptyFuse ['a'] = [] ∧
    { name := ['a', '5'], manager := [], code := [] } ∈ sixClients ∧
    jsIncludes (jsToLower ['a', '5']) (jsToLower ['a']) = true ∧
    { name := ['a', '5'], manager := [], code := [] } ∉
      findMatches sixClients (some emptyFuse) ['a'] := by
  decide

/-- Witness for C3: with a single-record directory the fallback path returns
the record whose name contains the query. -/
theorem fuzzy_fallback_substring_witness :
    { name := ['b'], manager := [], code := [] } ∈
      fallbackSearch [{ name := ['b'], manager := [], code := [] }] ['b'] :=
  (fuzzy_fallback_substring [{ name := ['b'], manager := [], code := [] }]
      emptyFuse ['b'] (by decide) rfl).2.2.2.2 (by decide)
    { name := ['b'], manager := [], code := [] } (by decide) (by decide)

/-- The empty runtime state (fresh start, no authorized users, no data). -/
def emptyState : RuntimeState :=
  { authorized := [], registryFile := [], clients := [], fuse := none }

/-- A runtime state with one authorized user `"u"`. -/
def oneUserState : RuntimeState :=
  { authorized := [['u']], registryFile := [['u']], clients := [], fuse := none }

/-- **C2 (amended).** For an unauthorized chat identity sending non-empty text,
the transition to authorized happens when and only when the *trimmed* message
text equals the shared access code (the source compares `text.trim()`, so
whitespace-padded codes are accepted); on success the identity is appended to
the in-memory set and the registry file and the confirmation is sent; on any
other non-empty message the state is unchanged and the access-code prompt is
sent. (Empty text is ignored before the authorization check and elicits
nothing: see the counterexample.) -/
theorem unauthorized_transition (loaded : List Client)
    (fuseOf : List Client → List Char → List Client) (st : RuntimeState)
    (c t : List Char) (hc : c ∉ st.authorized) (ht : t ≠ []) :
    (c ∈ (handleMessage loaded fuseOf st c t).1.authorized ↔ jsTrim t = ACCESS_CODE) ∧
    (jsTrim t = ACCESS_CODE →
      handleMessage loaded fuseOf st c t = (addAuthorizedUser c st, [Reply.accessGranted]) ∧
      c ∈ (addAuthorizedUser c st).authorized ∧
      c ∈ (addAuthorizedUser c st).registryFile) ∧
    (jsTrim t ≠ ACCESS_CODE →
      handleMessage loaded fuseOf st c t = (st, [Reply.accessPrompt])) := by
  refine ⟨?_, ?_, ?_⟩
  · by_cases hcode : jsTrim t = ACCESS_CODE
    · simp [handleMessage, ht, hc, handleUnauthorizedMessage, hcode, addAuthorizedUser]
    · simp [handleMessage, ht, hc, handleUnauthorizedMessage, hcode]
  · intro hcode
    refine ⟨?_, ?_, ?_⟩
    · simp [handleMessage, ht, hc, handleUnauthorizedMessage, hcode]
    · simp [addAuthorizedUser, hc]
    · simp [addAuthorizedUser, hc]
  · intro hcode
    simp [handleMessage, ht, hc, handleUnauthorizedMessage, hcode]

/-- **C2 counterexample.** (i) A message consisting of the access code padded
with a leading space is not exactly equal to the code, yet it authorizes the
sender (the source trims before comparing). (ii) A message with empty text from
an unauthorized identity produces no prompt at all, although the claim promises
an access-code prompt on every non-matching message. -/
theorem access_exact_match_cex :
    ([' '] ++ ACCESS_CODE ≠ ACCESS_CODE) ∧
    (['9'] ∈ (handleMessage [] (fun _ _ => []) emptyState ['9']
      ([' '] ++ ACCESS_CODE)).1.authorized) ∧
    handleMessage [] (fun _ _ => []) emptyState ['9'] [] = (emptyState, []) :=
  ⟨by decide, by decide, rfl⟩

/-- Witness for C2: sending exactly the access code from a fresh state grants
access and appends the identity. -/
theorem unauthorized_transition_witness :
    handleMessage [] (fun _ _ => []) emptyState ['9'] ACCESS_CODE =
      (addAuthorizedUser ['9'] emptyState, [Reply.accessGranted]) :=
  ((unauthorized_transition [] (fun _ _ => []) emptyState ['9'] ACCESS_CODE
      (by decide) (by decide)).2.1 (by decide)).1

/-- **C8.** The authorized-user set is monotonic: `addAuthorizedUser` on an
already-present identity is a no-op on the whole state (in-memory set and
registry file alike); every `message` event leaves the authorized set a prefix
of the resulting one (identities are only ever appended, never removed); and
the `/start` handler never changes the set. -/
theorem authorized_set_monotone :
    (∀ (st : RuntimeState) (userId : List Char), userId ∈ st.authorized →
      addAuthorizedUser userId st = st) ∧
    (∀ (loaded : List Client) (fuseOf : List Client → List Char → List Client)
      (st : RuntimeState) (c t : List Char),
      st.authorized <+: (handleMessage loaded fuseOf st c t).1.authorized) ∧
    (∀ (st : RuntimeState) (c : List Char),
      (handleStart st c).1.authorized = st.authorized) := by
  refine ⟨?_, ?_, ?_⟩
  · intro st userId h
    simp [addAuthorizedUser, h]
  · intro loaded fuseOf st c t
    by_cases ht : t = []
    · simp [handleMessage, ht]
    · by_cases hc : c ∈ st.authorized
      · by_cases hs : t.head? = some '/'
        · by_cases hr : t = ['/', 'r', 'e', 'l', 'o', 'a', 'd']
          · simp [handleMessage, ht, hc, hs, hr, loadClients]
          · simp [handleMessage, ht, hc, hs, hr]
        · simp only [handleMessage, ht, hc, hs, handleSearchMessage]
          by_cases hq : jsTrim t = []
          · simp [ht, hc, hs, hq]
          · simp [ht, hc, hs, hq]
      · simp only [handleMessage, ht, hc, handleUnauthorizedMessage]
        by_cases hcode : jsTrim t = ACCESS_CODE
        · simp only [ht, hc, hcode, addAuthorizedUser, if_true, if_false]
          simp [hc]
        · simp [ht, hc, hcode]
  · intro st c
    by_cases hc : c ∈ st.authorized <;> simp [handleStart, hc]

/-- Witness for C8: authorizing the already-authorized identity `"u"` changes
neither the in-memory set nor the registry file. -/
theorem authorized_set_monotone_witness :
    addAuthorizedUser ['u'] oneUserState = oneUserState :=
  authorized_set_monotone.1 oneUserState ['u'] (by decide)

/-- **C9.** Startup configuration validation: `validateConfig` succeeds exactly
when the chat-transport credential is present and non-empty and the symmetric
key is present, non-empty and base64-decodes to exactly 32 bytes; on success
the key it hands the rest of the program is those 32 bytes; and the shared
access code is a hard-coded non-empty constant (it can never be missing). -/
theorem config_validation_spec :
    ∀ botToken dataSecret : Option (List Char),
      ((∃ bytes, validateConfig botToken dataSecret = Except.ok bytes) ↔
        (∃ t, botToken = some t ∧ t ≠ []) ∧
        (∃ s bytes, dataSecret = some s ∧ s ≠ [] ∧ b64decode s = some bytes ∧
          bytes.length = 32)) ∧
      (∀ bytes, validateConfig botToken dataSecret = Except.ok bytes →
        b64decode (dataSecret.getD []) = some bytes ∧ bytes.length = 32) ∧
      ACCESS_CODE ≠ [] := by
  intro bt ds
  refine ⟨⟨?_, ?_⟩, ?_, by decide⟩
  · rintro ⟨bytes, h⟩
    rcases bt with _ | t
    · simp [validateConfig] at h
    rcases ds with _ | s
    · by_cases ht : t = [] <;> simp [validateConfig, ht] at h
    by_cases ht : t = []
    · simp [validateConfig, ht] at h
    by_cases hs : s = []
    · simp [validateConfig, ht, hs] at h
    rcases hd : b64decode s with _ | bytes2
    · simp [validateConfig, ht, hs, hd] at h
    by_cases hl : bytes2.length = 32
    · exact ⟨⟨t, rfl, ht⟩, ⟨s, bytes2, rfl, hs, hd, hl⟩⟩
    · simp [validateConfig, ht, hs, hd, hl] at h
  · rintro ⟨⟨t, rfl, ht⟩, ⟨s, bytes, rfl, hs, hd, hl⟩⟩
    exact ⟨bytes, by simp [validateConfig, ht, hs, hd, hl]⟩
  · intro bytes h
    rcases bt with _ | t
    · simp [validateConfig] at h
    rcases ds with _ | s
    · by_cases ht : t = [] <;> simp [validateConfig, ht] at h
    by_cases ht : t = []
    · simp [validateConfig, ht] at h
    by_cases hs : s = []
    · simp [validateConfig, ht, hs] at h
    rcases hd : b64decode s with _ | bytes2
    · simp [validateConfig, ht, hs, hd] at h
    by_cases hl : bytes2.length = 32
    · simp only [validateConfig, ht, hs, hd, hl, if_false, if_true] at h
      simp at h
      subst h
      exact ⟨by simpa using hd, hl⟩
    · simp [validateConfig, ht, hs, hd, hl] at h

/-- Witness for C9: a present token and a key that is the base64 encoding of
32 zero bytes validate successfully. -/
theorem config_validation_spec_witness :
    ∃ bytes, validateConfig (some ['t']) (some (b64encode (List.replicate 32 0))) =
      Except.ok bytes :=
  (config_validation_spec (some ['t']) (some (b64encode (List.replicate 32 0)))).1.mpr
    ⟨⟨['t'], rfl, by decide⟩,
     ⟨b64encode (List.replicate 32 0), List.replicate 32 0, rfl, by decide,
      b64_roundtrip _ (by decide), by decide⟩⟩

/-- **C10.** For an authorized identity: truly empty text produces no response
at all; non-empty but whitespace-only text is not treated as a search — the
state is unchanged and the dedicated "please send a search query" prompt is
sent, independently of the directory contents; a non-blank non-command query
with zero matches gets the distinct "no matches" message; and the two prompts
are different messages. -/
theorem whitespace_query_prompt (loaded : List Client)
    (fuseOf : List Client → List Char → List Client) (st : RuntimeState)
    (c t : List Char) (hc : c ∈ st.authorized) :
    (handleMessage loaded fuseOf st c [] = (st, [])) ∧
    (t ≠ [] → (∀ ch ∈ t, isJsWhitespace ch = true) →
      handleMessage loaded fuseOf st c t = (st, [Reply.searchPrompt])) ∧
    (jsTrim t ≠ [] → t.head? ≠ some '/' →
      findMatches st.clients st.fuse t = [] →
      handleMessage loaded fuseOf st c t = (st, [Reply.noMatches])) ∧
    Reply.searchPrompt ≠ Reply.noMatches := by
  refine ⟨rfl, ?_, ?_, by decide⟩
  · intro ht hws
    obtain ⟨ch, rest, rfl⟩ := List.exists_cons_of_ne_nil ht
    have hch : isJsWhitespace ch = true := hws ch (by simp)
    have hslash : ch ≠ '/' := by
      intro hcontra
      rw [hcontra] at hch
      exact absurd hch (by decide)
    simp [handleMessage, hc, handleSearchMessage, hslash,
      jsTrim_eq_nil_of_all_ws _ hws]
  · intro hq hs hfind
    have ht : t ≠ [] := by
      intro hnil
      rw [hnil] at hq
      exact hq rfl
    simp [handleMessage, ht, hc, hs, handleSearchMessage, hq, formatResult, hfind]

/-- Witness for C10: a single-space message from the authorized user `"u"`
elicits the search prompt and leaves the state unchanged. -/
theorem whitespace_query_prompt_witness :
    handleMessage [] (fun _ _ => []) oneUserState ['u'] [' '] =
      (oneUserState, [Reply.searchPrompt]) :=
  (whitespace_query_prompt [] (fun _ _ => []) oneUserState ['u'] [' ']
      (by decide)).2.1 (by decide) (by decide)
